import Mathlib

/-!
Verification of the ThorVG software rasterizer core
(`src/lib/sw_engine/tvgSwRaster.cpp`, `src/lib/sw_engine/tvgSwRenderer.cpp`)
against its natural-language specification.

Shallow embedding conventions:
* machine `uint32_t` values are `Nat`, kept below `2 ^ 32` by hypotheses or
  explicit `% 0x100000000` where wrap-around matters;
* pixel buffers (`uint32_t*`) are total functions `Nat → Nat` from element
  offsets to stored words; pointer arithmetic becomes offset arithmetic;
* `for` loops become folds over `List.range`, irregular `while` loops with
  in-body index mutation become fuel-indexed structural recursion (the fuel
  is always sufficient for the executions the theorems talk about);
* helpers that live in headers missing from the source drop
  (`tvgSwCommon.h`, `tvgSwRasterC.h`, the fill routines of `tvgSwFill.cpp`)
  are modelled from the specification text and carry a doc comment saying so.
-/

namespace ThorVG

/-- A pixel buffer: element offset to stored 32-bit word. -/
def Buf : Type := Nat → Nat

/-- Single store `buf[addr] = v`. -/
def store (b : Buf) (addr v : Nat) : Buf :=
  fun a => if a = addr then v else b a

/-- One horizontal run: for `x` in `[0, w)`, `buf[base + x] = f buf[base + x]`
(the loop body reads the cell it overwrites, as every inner loop of the
rasterizer does). -/
def rowMap (b : Buf) (base w : Nat) (f : Nat → Nat) : Buf :=
  (List.range w).foldl (fun b2 x => store b2 (base + x) (f (b2 (base + x)))) b

/-- Row-major double loop: rows `y` in `[0, h)`, each a `rowMap` of width `w`
starting at `base + y * stride`. -/
def regionMap (b : Buf) (base stride w h : Nat) (f : Nat → Nat) : Buf :=
  (List.range h).foldl (fun b2 y => rowMap b2 (base + y * stride) w f) b

/-- u32 wrap-around addition (`a + b` on `uint32_t`). -/
def addU32 (a b : Nat) : Nat := (a + b) % 0x100000000

/-- u32 wrap-around subtraction (`a - b` on `uint32_t`), for `a b < 2 ^ 32`. -/
def subU32 (a b : Nat) : Nat := (a + 0x100000000 - b % 0x100000000) % 0x100000000

/-- Modelled from the spec: `MULTIPLY(a, b)` of the missing `tvgSwCommon.h`,
the 8-bit product `(a * b) / 255` the spec uses for coverage-opacity folding. -/
def MULTIPLY (a b : Nat) : Nat := a * b / 255

/-- Modelled from the spec: the per-byte alpha scaling of `ALPHA_BLEND`,
`(x * a * 257 + 0x8000) >> 16`, the variant named by the spec that satisfies
`blend(c, 255) = c` and `blend(c, 0) = 0` exactly. -/
def blend8 (x a : Nat) : Nat := (x * a * 257 + 0x8000) / 0x10000

/-- Modelled from the spec: `ALPHA_BLEND(c, a)` of the missing
`tvgSwCommon.h` multiplies each of the four bytes of the packed word `c`
by `a / 255` (via `blend8`) without cross-channel carry. -/
def ALPHA_BLEND (c a : Nat) : Nat :=
  blend8 (c / 0x1000000 % 0x100) a * 0x1000000 +
  blend8 (c / 0x10000 % 0x100) a * 0x10000 +
  blend8 (c / 0x100 % 0x100) a * 0x100 +
  blend8 (c % 0x100) a

/-- Modelled from the spec: `alpha(c) = c >> 24` (top byte of a u32 word). -/
def ALPHA32 (c : Nat) : Nat := c / 0x1000000 % 0x100

/-- Modelled from the spec: `iAlpha(c) = 255 - alpha(c)` (the u32 overload of
`IALPHA` from the missing `tvgSwCommon.h`; the `uint8_t` one in the source is
`~(*a)`, i.e. the same complement). -/
def IALPHA32 (c : Nat) : Nat := 255 - ALPHA32 c

/-- Modelled from the spec: `INTERPOLATE(a, b, t) = blend(a, t) + blend(b, 255 - t)`. -/
def INTERPOLATE (a b t : Nat) : Nat := addU32 (ALPHA_BLEND a t) (ALPHA_BLEND b (255 - t))

/-- `rasterRGBA32(dst, val, offset, len)`: memset-like store of `val` into
`dst[offset .. offset+len)` (the source delegates to `cRasterPixels` of the
missing `tvgSwRasterC.h`; modelled from the spec's `fill_solid`).
`dst` is the pointer, passed here as the element offset `dstBase`. -/
def rasterRGBA32 (b : Buf) (dstBase val offset len : Nat) : Buf :=
  rowMap b (dstBase + offset) len (fun _ => val)

/-! ## Data model -/

/-- `CompositeMethod` (from `tvgCommon`/`thorvg.h`, mirrored by `spec.md` s3):
the first four (up to `ClipPath` and the matte modes) are below `AddMask`
in the enumeration order used by `_matting`/`_masking`. -/
inductive CompositeMethod where
  | None
  | ClipPath
  | AlphaMask
  | InvAlphaMask
  | LumaMask
  | InvLumaMask
  | AddMask
  | SubtractMask
  | IntersectMask
  | DifferenceMask
deriving DecidableEq

/-- Numeric tag of a `CompositeMethod`, mirroring the C enumeration order,
used by the `<`/`>=` comparisons of `_compositing`, `_matting`, `_masking`. -/
def CompositeMethod.tag : CompositeMethod → Nat
  | .None => 0
  | .ClipPath => 1
  | .AlphaMask => 2
  | .InvAlphaMask => 3
  | .LumaMask => 4
  | .InvLumaMask => 5
  | .AddMask => 6
  | .SubtractMask => 7
  | .IntersectMask => 8
  | .DifferenceMask => 9

/-- Colour space tag. The four colour formats are named in
`rasterCompositor`; `Grayscale8` covers the spec's 1-byte-channel surfaces
(the defining header `tvgRender.h` is not in the source drop). -/
inductive ColorSpace where
  | ABGR8888
  | ABGR8888S
  | ARGB8888
  | ARGB8888S
  | Grayscale8
deriving DecidableEq

/-- Identity of a per-channel alpha-extraction routine stored in
`surface->blender.alphas[i]`. The function pointers of the source are
modelled as tags; `uninit` stands for whatever value the slot held before
`rasterCompositor` ran. -/
inductive AlphaFn where
  | fnALPHA
  | fnIALPHA
  | fnAbgrLuma
  | fnAbgrInvLuma
  | fnArgbLuma
  | fnArgbInvLuma
  | uninit
deriving DecidableEq

/-- Identity of the byte-order join routine stored in `surface->blender.join`. -/
inductive JoinFn where
  | fnAbgrJoin
  | fnArgbJoin
  | uninit
deriving DecidableEq

/-- `SwBlender`: the four alpha-extraction slots and the join slot. -/
structure SwBlender where
  join : JoinFn
  alphas0 : AlphaFn
  alphas1 : AlphaFn
  alphas2 : AlphaFn
  alphas3 : AlphaFn
deriving DecidableEq

/-- `_abgrJoin(r, g, b, a) = a << 24 | b << 16 | g << 8 | r`; for byte-sized
arguments the disjoint-lane `|` is addition. -/
def _abgrJoin (r g b a : Nat) : Nat :=
  a * 0x1000000 + b * 0x10000 + g * 0x100 + r

/-- `_argbJoin(r, g, b, a) = a << 24 | r << 16 | g << 8 | b`. -/
def _argbJoin (r g b a : Nat) : Nat :=
  a * 0x1000000 + r * 0x10000 + g * 0x100 + b

/-- Dispatch of the `blender.join` function pointer. An `uninit` slot has no
defined behaviour in C; it returns 0 here and no theorem exercises it. -/
def JoinFn.apply : JoinFn → Nat → Nat → Nat → Nat → Nat
  | .fnAbgrJoin, r, g, b, a => _abgrJoin r g b a
  | .fnArgbJoin, r, g, b, a => _argbJoin r g b a
  | .uninit, _, _, _, _ => 0

/-- `SwBBox`: integer rectangle `[minX, maxX) x [minY, maxY)`. The source
stores `SwCoord` (signed); every claim concerns in-surface regions, so
coordinates are `Nat` here. -/
structure SwBBox where
  minX : Nat
  minY : Nat
  maxX : Nat
  maxY : Nat
deriving DecidableEq

/-- One RLE span `{x, y, len, coverage}`. -/
structure SwSpan where
  x : Nat
  y : Nat
  len : Nat
  coverage : Nat
deriving DecidableEq

/-- The compositor attached to a surface: its image buffer (always 4-byte
channels per the spec invariant), the image stride, the current bbox and
composite method. -/
structure SwCompositor where
  method : CompositeMethod
  buf : Buf
  stride : Nat
  bbox : SwBBox

/-- `_abgrLuma(c)`: `((v & 0xff) * 54 + ((v >> 8) & 0xff) * 183 + ((v >> 16) & 0xff) * 19) >> 8`
on the pixel word `v`. -/
def _abgrLuma (v : Nat) : Nat :=
  (v % 0x100 * 54 + v / 0x100 % 0x100 * 183 + v / 0x10000 % 0x100 * 19) / 0x100

/-- `_argbLuma(c)`: same dot product with the red/blue weights swapped. -/
def _argbLuma (v : Nat) : Nat :=
  (v % 0x100 * 19 + v / 0x100 % 0x100 * 183 + v / 0x10000 % 0x100 * 54) / 0x100

/-- `_abgrInvLuma(c) = ~_abgrLuma(c)` (8-bit complement). -/
def _abgrInvLuma (v : Nat) : Nat := 255 - _abgrLuma v

/-- `_argbInvLuma(c) = ~_argbLuma(c)`. -/
def _argbInvLuma (v : Nat) : Nat := 255 - _argbLuma v

/-- Dispatch of an alpha-extraction slot on the compositor pixel word it
points at. `ALPHA` reads the first byte of the word (`*a` on the
little-endian byte walk), `IALPHA` its complement; the luma routines load
the whole word. `uninit` has no defined behaviour in C; no theorem
exercises it. -/
def AlphaFn.applyToWord : AlphaFn → Nat → Nat
  | .fnALPHA, v => v % 0x100
  | .fnIALPHA, v => 255 - v % 0x100
  | .fnAbgrLuma, v => _abgrLuma v
  | .fnAbgrInvLuma, v => _abgrInvLuma v
  | .fnArgbLuma, v => _argbLuma v
  | .fnArgbInvLuma, v => _argbInvLuma v
  | .uninit, _ => 0

/-- Modelled from the spec: `surface->blender.alpha(method)` of the missing
`tvgSwCommon.h` selects the alpha-extraction slot for a matte mode
(`AlphaMask`, `InvAlphaMask`, `LumaMask`, `InvLumaMask` map to
`alphas[0..3]`; the source comment at `rasterCompositor` gives the same
table). Other methods never reach it; they default to slot 0. -/
def SwBlender.alphaSel (b : SwBlender) : CompositeMethod → AlphaFn
  | .AlphaMask => b.alphas0
  | .InvAlphaMask => b.alphas1
  | .LumaMask => b.alphas2
  | .InvLumaMask => b.alphas3
  | _ => b.alphas0

/-- `SwSurface`: destination buffer, stride, extent, channel size, colour
space, blender, optional compositor. -/
structure SwSurface where
  buf : Buf
  stride : Nat
  w : Nat
  h : Nat
  channelSize : Nat
  cs : ColorSpace
  blender : SwBlender
  compositor : Option SwCompositor

/-- `_compositing(surface)`: a compositor is attached and its method is
above `ClipPath`. -/
def _compositing (s : SwSurface) : Bool :=
  match s.compositor with
  | none => false
  | some c => decide (CompositeMethod.tag CompositeMethod.ClipPath < c.method.tag)

/-- `_matting(surface)`: the attached method is below `AddMask`. -/
def _matting (s : SwSurface) : Bool :=
  match s.compositor with
  | none => true
  | some c => decide (c.method.tag < CompositeMethod.tag CompositeMethod.AddMask)

/-- Linear part of `SwFill`: the float `len` (floats are embedded as exact
rationals) and, modelled from the spec, the colour produced for a pixel
`(x, y)` — the ramp lookup at the evaluated gradient parameter collapsed
into one function (`tvgSwFill.cpp` is not in the source drop). -/
structure SwLinearFill where
  len : ℚ
  pix : Nat → Nat → Nat

/-- Radial part of `SwFill`: the radial coefficient `a` and the spec-modelled
per-pixel colour function (see `SwLinearFill.pix`). -/
structure SwRadialFill where
  a : ℚ
  pix : Nat → Nat → Nat

/-- `SwFill`: both gradient parameter blocks plus the `translucent` flag. -/
structure SwFill where
  linear : SwLinearFill
  radial : SwRadialFill
  translucent : Bool

/-- `FLT_EPSILON = 2 ^ (-23) = 1 / 8388608` as an exact rational (written
as a literal numerator/denominator pair so comparisons against it compute
by kernel reduction). -/
def FLT_EPSILON : ℚ := ⟨1, 8388608, by norm_num, Nat.coprime_one_left _⟩

/-- `SwImage`: source pixel buffer, stride, extent, the two sampling offsets
`ox`/`oy`, and the optional RLE clip (spans list; `none` models a null
`rle`). -/
structure SwImage where
  buf : Buf
  stride : Nat
  w : Nat
  h : Nat
  ox : Nat
  oy : Nat
  rle : Option (List SwSpan)

/-! ## Span writers (gradient fills)

The gradient span writers live in `tvgSwFill.cpp` / `tvgSwRasterC.h`, which
are not in the source drop; they are modelled from the spec (s4.3): evaluate
the gradient colour at each pixel (collapsed into `SwLinearFill.pix` /
`SwRadialFill.pix`), scale by the span coverage, apply the op. -/

/-- A run whose written value may depend on the loop index as well as on the
overwritten cell: for `x` in `[0, w)`, `buf[base + x] = f x buf[base + x]`. -/
def rowMapIdx (b : Buf) (base w : Nat) (f : Nat → Nat → Nat) : Buf :=
  (List.range w).foldl (fun b2 x => store b2 (base + x) (f x (b2 (base + x)))) b

/-- Tag of the per-pixel op passed to a gradient span writer
(`opBlend`, `opAlphaBlend`, `opInterpolate`, `opAddMask`, `opSubMask`,
`opIntMask`, `opDifMask` of the missing header). -/
inductive FillOp where
  | blend
  | alphaBlend
  | interpolate
  | addMask
  | subMask
  | intMask
  | difMask
deriving DecidableEq

/-- Modelled from the spec: the per-pixel formulas of s4.3/s4.4, where `s`
is the coverage-scaled source colour and `d` the existing pixel. -/
def FillOp.apply (op : FillOp) (cov pix d : Nat) : Nat :=
  let s := if cov = 255 then pix else ALPHA_BLEND pix cov
  match op with
  | .blend => addU32 s (ALPHA_BLEND d (IALPHA32 s))
  | .alphaBlend => addU32 s (ALPHA_BLEND d (IALPHA32 s))
  | .interpolate => INTERPOLATE pix d cov
  | .addMask => addU32 s (ALPHA_BLEND d (IALPHA32 s))
  | .subMask => ALPHA_BLEND d (IALPHA32 s)
  | .intMask => ALPHA_BLEND d (ALPHA32 s)
  | .difMask => addU32 (ALPHA_BLEND s (IALPHA32 d)) (ALPHA_BLEND d (IALPHA32 s))

/-- Modelled from the spec: `fillLinear(fill, dst, y, x, len)` — the plain
(solid, fully covered) overload stores the gradient colour directly. `dst`
is passed as the element offset `dstBase` into `b`. -/
def fillLinear (b : Buf) (fill : SwFill) (dstBase y x len : Nat) : Buf :=
  rowMapIdx b dstBase len (fun i _ => fill.linear.pix (x + i) y)

/-- Modelled from the spec: `fillLinear(fill, dst, y, x, len, op, cov)` —
the op overload applies `op` with coverage `cov` at every pixel. -/
def fillLinearOp (b : Buf) (fill : SwFill) (dstBase y x len : Nat)
    (op : FillOp) (cov : Nat) : Buf :=
  rowMapIdx b dstBase len (fun i v => op.apply cov (fill.linear.pix (x + i) y) v)

/-- Modelled from the spec: the matted overload
`fillLinear(fill, dst, y, x, len, cmp, alpha, csize, cov)` blends
`INTERPOLATE(src, dst, alpha(cmp))` per pixel, with the compositor pixel
read word-wise (the byte walk of the 4-byte-channel compositor). -/
def fillLinearMatted (b : Buf) (fill : SwFill) (dstBase y x len : Nat)
    (cmp : Buf) (cmpBase : Nat) (alphaFn : AlphaFn) (cov : Nat) : Buf :=
  rowMapIdx b dstBase len (fun i v =>
    let pix := fill.linear.pix (x + i) y
    let s := if cov = 255 then pix else ALPHA_BLEND pix cov
    INTERPOLATE s v (alphaFn.applyToWord (cmp (cmpBase + i))))

/-- Modelled from the spec: `fillRadial(fill, dst, y, x, len)`. -/
def fillRadial (b : Buf) (fill : SwFill) (dstBase y x len : Nat) : Buf :=
  rowMapIdx b dstBase len (fun i _ => fill.radial.pix (x + i) y)

/-- Modelled from the spec: `fillRadial(fill, dst, y, x, len, op, cov)`. -/
def fillRadialOp (b : Buf) (fill : SwFill) (dstBase y x len : Nat)
    (op : FillOp) (cov : Nat) : Buf :=
  rowMapIdx b dstBase len (fun i v => op.apply cov (fill.radial.pix (x + i) y) v)

/-- Modelled from the spec: the matted `fillRadial` overload (see
`fillLinearMatted`). -/
def fillRadialMatted (b : Buf) (fill : SwFill) (dstBase y x len : Nat)
    (cmp : Buf) (cmpBase : Nat) (alphaFn : AlphaFn) (cov : Nat) : Buf :=
  rowMapIdx b dstBase len (fun i v =>
    let pix := fill.radial.pix (x + i) y
    let s := if cov = 255 then pix else ALPHA_BLEND pix cov
    INTERPOLATE s v (alphaFn.applyToWord (cmp (cmpBase + i))))

/-! ## Direct image blit -/

/-- The compositor's buffer viewed as the `SwImage` the masking-composition
blits pass (`&surface->compositor->image`); its sampling offsets are zero. -/
def SwCompositor.image (c : SwCompositor) : SwImage :=
  { buf := c.buf, stride := c.stride, w := 0, h := 0, ox := 0, oy := 0, rle := none }

/-- `_rasterDirectRGBAImage(surface, image, region, opacity)`
(`tvgSwRaster.cpp:1213`): for each `(x, y)` of `region`,
`dst = src + ALPHA_BLEND(dst, IALPHA(src))`, with `src` first scaled by
`opacity` when it is not 255. Returns `true`. -/
def _rasterDirectRGBAImage (s : SwSurface) (image : SwImage) (region : SwBBox)
    (opacity : Nat) : SwSurface × Bool :=
  let w := region.maxX - region.minX
  let h := region.maxY - region.minY
  let dbase := region.minY * s.stride + region.minX
  let sbase := (region.minY + image.oy) * image.stride + (region.minX + image.ox)
  let b :=
    (List.range h).foldl (fun b2 y =>
      rowMapIdx b2 (dbase + y * s.stride) w (fun x v =>
        let src := image.buf (sbase + y * image.stride + x)
        if opacity = 255 then
          addU32 src (ALPHA_BLEND v (IALPHA32 src))
        else
          let tmp := ALPHA_BLEND src opacity
          addU32 tmp (ALPHA_BLEND v (IALPHA32 tmp)))) s.buf
  ({ s with buf := b }, true)

/-! ## Solid rect & RLE mask rasterizers (`_rasterMaskedRect`, `_rasterMaskedRle`) -/

/-- Inner `while (x < cbbox.max.x)` of an `IntersectMask` rect branch,
shared between the solid and gradient rect rasterizers: at `x == region.min.x`
perform `act` (the in-region update of width `step`, with `tmp` tracking `x`
so the write offset is `y2 * cstride + x`), otherwise zero one pixel and
advance. Structural recursion on explicit fuel; every execution the theorems
mention has enough fuel (`x` strictly increases while below `cbbox.max.x`
whenever `step ≥ 1`; a zero-width region would loop forever in C). -/
def intersectRectRow (cstride regMinX cbMaxX step y2 : Nat)
    (act : Nat → Nat → Buf → Buf) : Nat → Nat → Buf → Buf
  | 0, _, b => b
  | fuel + 1, x, b =>
    if x < cbMaxX then
      if x = regMinX then
        intersectRectRow cstride regMinX cbMaxX step y2 act fuel (x + step) (act y2 x b)
      else
        intersectRectRow cstride regMinX cbMaxX step y2 act fuel (x + 1)
          (store b (y2 * cstride + x) 0)
    else b

/-- Outer `for (y = cbbox.min.y; y < cbbox.max.y; ++y)` of an
`IntersectMask` rect branch: at `y == region.min.y` run `rowAct` for every
`y2` in `[y, region.max.y)` and then skip to `region.max.y`
(`y += (h - 1)` followed by the loop's `++y`; the embedding writes `y + h`,
the value these two steps produce for a region of height `h ≥ 1`); other
rows get `rasterRGBA32(cmp, 0, 0, clearW)` at column `cbbox.min.x`.
Fuel-indexed for the same reason as `intersectRectRow`. -/
def intersectRectOuter (cstride clearW h : Nat) (region cbbox : SwBBox)
    (rowAct : Nat → Buf → Buf) : Nat → Nat → Buf → Buf
  | 0, _, b => b
  | fuel + 1, y, b =>
    if y < cbbox.maxY then
      if y = region.minY then
        let b2 := (List.range (region.maxY - y)).foldl (fun bb k => rowAct (y + k) bb) b
        intersectRectOuter cstride clearW h region cbbox rowAct fuel (y + h) b2
      else
        intersectRectOuter cstride clearW h region cbbox rowAct fuel (y + 1)
          (rasterRGBA32 b (y * cstride + cbbox.minX) 0 0 clearW)
    else b

/-- `_rasterMaskedRect(surface, region, r, g, b, a)` (`tvgSwRaster.cpp:184`).
The compositor dereference of the source is guarded here by the `Option`;
the function is only ever dispatched under `_compositing`. -/
def _rasterMaskedRect (s : SwSurface) (region : SwBBox) (r g b a : Nat) :
    SwSurface × Bool :=
  if s.channelSize ≠ 4 then (s, false) else
  match s.compositor with
  | none => (s, false)
  | some comp =>
    let w := region.maxX - region.minX
    let h := region.maxY - region.minY
    let cbase := region.minY * comp.stride + region.minX
    let color := s.blender.join.apply r g b a
    let ialpha := 255 - a
    let finish := fun (cb : Buf) =>
      let comp2 := { comp with buf := cb }
      let s2 := { s with compositor := some comp2 }
      _rasterDirectRGBAImage s2 comp2.image comp.bbox 255
    match comp.method with
    | .AddMask =>
        finish (regionMap comp.buf cbase comp.stride w h
          (fun v => addU32 color (ALPHA_BLEND v ialpha)))
    | .SubtractMask =>
        finish (regionMap comp.buf cbase comp.stride w h
          (fun v => ALPHA_BLEND v ialpha))
    | .IntersectMask =>
        finish (intersectRectOuter comp.stride w h region comp.bbox
          (fun y2 => intersectRectRow comp.stride region.minX comp.bbox.maxX w y2
            (fun y2x x bb => rowMap bb (y2x * comp.stride + x) w (fun v => ALPHA_BLEND v a))
            comp.bbox.maxX comp.bbox.minX)
          comp.bbox.maxY comp.bbox.minY comp.buf)
    | .DifferenceMask =>
        finish (regionMap comp.buf cbase comp.stride w h
          (fun v => addU32 (ALPHA_BLEND color (IALPHA32 v)) (ALPHA_BLEND v ialpha)))
    | _ => (s, false)

/-- Inner `while (x < cbbox.max.x)` of an `IntersectMask` RLE branch: the
span pointer walks the list; a span is consumed when `y == span->y`,
`x == span->x` and the span fits before `cbbox.max.x`, otherwise one pixel
is zeroed. `spanAct` is the in-span update (solid or gradient). An empty
list makes the span test false (the C code would read past the array). -/
def intersectRleRow (cstride cbMaxX y : Nat)
    (spanAct : SwSpan → Nat → Nat → Buf → Buf) :
    Nat → Nat → List SwSpan → Buf → Buf × List SwSpan
  | 0, _, sps, b => (b, sps)
  | fuel + 1, x, sps, b =>
    if x < cbMaxX then
      match sps with
      | sp :: rest =>
        if y = sp.y ∧ x = sp.x ∧ x + sp.len ≤ cbMaxX then
          intersectRleRow cstride cbMaxX y spanAct fuel (x + sp.len) rest (spanAct sp y x b)
        else
          intersectRleRow cstride cbMaxX y spanAct fuel (x + 1) (sp :: rest)
            (store b (y * cstride + x) 0)
      | [] =>
          intersectRleRow cstride cbMaxX y spanAct fuel (x + 1) []
            (store b (y * cstride + x) 0)
    else (b, sps)

/-- Outer row loop of an `IntersectMask` RLE branch over the compositor
bbox, threading the remaining spans. -/
def intersectRleOuter (cstride : Nat) (cbbox : SwBBox)
    (spanAct : SwSpan → Nat → Nat → Buf → Buf) (spans : List SwSpan) (b : Buf) : Buf :=
  ((List.range (cbbox.maxY - cbbox.minY)).foldl (fun st k =>
    intersectRleRow cstride cbbox.maxX (cbbox.minY + k) spanAct
      cbbox.maxX cbbox.minX st.2 st.1) (b, spans)).1

/-- The span source colour: `if (span->coverage == 255) src = color; else
src = ALPHA_BLEND(color, span->coverage)`. -/
def rleSrc (color : Nat) (sp : SwSpan) : Nat :=
  if sp.coverage = 255 then color else ALPHA_BLEND color sp.coverage

/-- `_rasterMaskedRle(surface, rle, r, g, b, a)` (`tvgSwRaster.cpp:345`). -/
def _rasterMaskedRle (s : SwSurface) (spans : List SwSpan) (r g b a : Nat) :
    SwSurface × Bool :=
  if s.channelSize ≠ 4 then (s, false) else
  match s.compositor with
  | none => (s, false)
  | some comp =>
    let color := s.blender.join.apply r g b a
    let finish := fun (cb : Buf) =>
      let comp2 := { comp with buf := cb }
      let s2 := { s with compositor := some comp2 }
      _rasterDirectRGBAImage s2 comp2.image comp.bbox 255
    match comp.method with
    | .AddMask =>
        finish (spans.foldl (fun b2 sp =>
          rowMap b2 (sp.y * comp.stride + sp.x) sp.len
            (fun v => addU32 (rleSrc color sp) (ALPHA_BLEND v (IALPHA32 (rleSrc color sp)))))
          comp.buf)
    | .SubtractMask =>
        finish (spans.foldl (fun b2 sp =>
          rowMap b2 (sp.y * comp.stride + sp.x) sp.len
            (fun v => ALPHA_BLEND v (IALPHA32 (rleSrc color sp)))) comp.buf)
    | .IntersectMask =>
        finish (intersectRleOuter comp.stride comp.bbox
          (fun sp y x bb =>
            rowMap bb (y * comp.stride + x) sp.len
              (fun v => ALPHA_BLEND v (ALPHA32 (rleSrc color sp))))
          spans comp.buf)
    | .DifferenceMask =>
        finish (spans.foldl (fun b2 sp =>
          rowMap b2 (sp.y * comp.stride + sp.x) sp.len
            (fun v => addU32 (ALPHA_BLEND (rleSrc color sp) (IALPHA32 v))
              (ALPHA_BLEND v (IALPHA32 (rleSrc color sp))))) comp.buf)
    | _ => (s, false)

/-! ## Rect gradient rasterizers -/

/-- `_rasterLinearGradientMaskedRect` (`tvgSwRaster.cpp:1272`). Its row
pointer advances by `surface->stride` (not the compositor stride), as in
the source; its degeneracy guard tests `fill->linear.len`. -/
def _rasterLinearGradientMaskedRect (s : SwSurface) (region : SwBBox) (fill : SwFill) :
    SwSurface × Bool :=
  if fill.linear.len < FLT_EPSILON then (s, false) else
  match s.compositor with
  | none => (s, false)
  | some comp =>
    let w := region.maxX - region.minX
    let h := region.maxY - region.minY
    let cbase := region.minY * comp.stride + region.minX
    let finish := fun (cb : Buf) =>
      let comp2 := { comp with buf := cb }
      let s2 := { s with compositor := some comp2 }
      _rasterDirectRGBAImage s2 comp2.image comp.bbox 255
    let rows := fun (op : FillOp) =>
      (List.range h).foldl (fun b2 y =>
        fillLinearOp b2 fill (cbase + y * s.stride) (region.minY + y) region.minX w op 255)
        comp.buf
    match comp.method with
    | .AddMask => finish (rows .addMask)
    | .SubtractMask => finish (rows .subMask)
    | .IntersectMask =>
        finish (intersectRectOuter comp.stride (comp.bbox.maxX - comp.bbox.minX) h region comp.bbox
          (fun y2 => intersectRectRow comp.stride region.minX comp.bbox.maxX w y2
            (fun y2x x bb => fillLinearOp bb fill (y2x * comp.stride + x) y2x x w .intMask 255)
            comp.bbox.maxX comp.bbox.minX)
          comp.bbox.maxY comp.bbox.minY comp.buf)
    | .DifferenceMask => finish (rows .difMask)
    | _ => (s, false)

/-- `_rasterLinearGradientMattedRect` (`tvgSwRaster.cpp:1332`). -/
def _rasterLinearGradientMattedRect (s : SwSurface) (region : SwBBox) (fill : SwFill) :
    SwSurface × Bool :=
  if fill.linear.len < FLT_EPSILON then (s, false) else
  match s.compositor with
  | none => (s, false)
  | some comp =>
    let w := region.maxX - region.minX
    let h := region.maxY - region.minY
    let dbase := region.minY * s.stride + region.minX
    let cbase := region.minY * comp.stride + region.minX
    let alphaFn := s.blender.alphaSel comp.method
    let b2 := (List.range h).foldl (fun bb y =>
      fillLinearMatted bb fill (dbase + y * s.stride) (region.minY + y) region.minX w
        comp.buf (cbase + y * s.stride) alphaFn 255) s.buf
    ({ s with buf := b2 }, true)

/-- `_rasterTranslucentLinearGradientRect` (`tvgSwRaster.cpp:1354`). -/
def _rasterTranslucentLinearGradientRect (s : SwSurface) (region : SwBBox) (fill : SwFill) :
    SwSurface × Bool :=
  if fill.linear.len < FLT_EPSILON then (s, false) else
  let w := region.maxX - region.minX
  let h := region.maxY - region.minY
  let dbase := region.minY * s.stride + region.minX
  let b2 := (List.range h).foldl (fun bb y =>
    fillLinearOp bb fill (dbase + y * s.stride) (region.minY + y) region.minX w .blend 255) s.buf
  ({ s with buf := b2 }, true)

/-- `_rasterSolidLinearGradientRect` (`tvgSwRaster.cpp:1370`). -/
def _rasterSolidLinearGradientRect (s : SwSurface) (region : SwBBox) (fill : SwFill) :
    SwSurface × Bool :=
  if fill.linear.len < FLT_EPSILON then (s, false) else
  let w := region.maxX - region.minX
  let h := region.maxY - region.minY
  let dbase := region.minY * s.stride + region.minX
  let b2 := (List.range h).foldl (fun bb y =>
    fillLinear bb fill (dbase + y * s.stride) (region.minY + y) region.minX w) s.buf
  ({ s with buf := b2 }, true)

/-- `_rasterLinearGradientRect` (`tvgSwRaster.cpp:1385`). On the
non-composited solid path the source discards the callee's result and falls
through to `return false`. -/
def _rasterLinearGradientRect (s : SwSurface) (region : SwBBox) (fill : SwFill) :
    SwSurface × Bool :=
  if _compositing s then
    if _matting s then _rasterLinearGradientMattedRect s region fill
    else _rasterLinearGradientMaskedRect s region fill
  else
    if fill.translucent then _rasterTranslucentLinearGradientRect s region fill
    else ((_rasterSolidLinearGradientRect s region fill).1, false)

/-- `_rasterRadialGradientMaskedRect` (`tvgSwRaster.cpp:1519`). Note the
source guards on `fill->linear.len` (not `fill->radial.a`), advances the
row pointer by `surface->stride`, and clears out-of-region rows of the
`IntersectMask` branch with the region width `w`. -/
def _rasterRadialGradientMaskedRect (s : SwSurface) (region : SwBBox) (fill : SwFill) :
    SwSurface × Bool :=
  if fill.linear.len < FLT_EPSILON then (s, false) else
  match s.compositor with
  | none => (s, false)
  | some comp =>
    let w := region.maxX - region.minX
    let h := region.maxY - region.minY
    let cbase := region.minY * comp.stride + region.minX
    let finish := fun (cb : Buf) =>
      let comp2 := { comp with buf := cb }
      let s2 := { s with compositor := some comp2 }
      _rasterDirectRGBAImage s2 comp2.image comp.bbox 255
    let rows := fun (op : FillOp) =>
      (List.range h).foldl (fun b2 y =>
        fillRadialOp b2 fill (cbase + y * s.stride) (region.minY + y) region.minX w op 255)
        comp.buf
    match comp.method with
    | .AddMask => finish (rows .addMask)
    | .SubtractMask => finish (rows .subMask)
    | .IntersectMask =>
        finish (intersectRectOuter comp.stride w h region comp.bbox
          (fun y2 => intersectRectRow comp.stride region.minX comp.bbox.maxX w y2
            (fun y2x x bb => fillRadialOp bb fill (y2x * comp.stride + x) y2x x w .intMask 255)
            comp.bbox.maxX comp.bbox.minX)
          comp.bbox.maxY comp.bbox.minY comp.buf)
    | .DifferenceMask => finish (rows .difMask)
    | _ => (s, false)

/-- `_rasterRadialGradientMattedRect` (`tvgSwRaster.cpp:1579`); this one
guards on `fill->radial.a`. -/
def _rasterRadialGradientMattedRect (s : SwSurface) (region : SwBBox) (fill : SwFill) :
    SwSurface × Bool :=
  if fill.radial.a < FLT_EPSILON then (s, false) else
  match s.compositor with
  | none => (s, false)
  | some comp =>
    let w := region.maxX - region.minX
    let h := region.maxY - region.minY
    let dbase := region.minY * s.stride + region.minX
    let cbase := region.minY * comp.stride + region.minX
    let alphaFn := s.blender.alphaSel comp.method
    let b2 := (List.range h).foldl (fun bb y =>
      fillRadialMatted bb fill (dbase + y * s.stride) (region.minY + y) region.minX w
        comp.buf (cbase + y * s.stride) alphaFn 255) s.buf
    ({ s with buf := b2 }, true)

/-- `_rasterTranslucentRadialGradientRect` (`tvgSwRaster.cpp:1601`). -/
def _rasterTranslucentRadialGradientRect (s : SwSurface) (region : SwBBox) (fill : SwFill) :
    SwSurface × Bool :=
  if fill.radial.a < FLT_EPSILON then (s, false) else
  let w := region.maxX - region.minX
  let h := region.maxY - region.minY
  let dbase := region.minY * s.stride + region.minX
  let b2 := (List.range h).foldl (fun bb y =>
    fillRadialOp bb fill (dbase + y * s.stride) (region.minY + y) region.minX w .blend 255) s.buf
  ({ s with buf := b2 }, true)

/-- `_rasterSolidRadialGradientRect` (`tvgSwRaster.cpp:1618`). -/
def _rasterSolidRadialGradientRect (s : SwSurface) (region : SwBBox) (fill : SwFill) :
    SwSurface × Bool :=
  if fill.radial.a < FLT_EPSILON then (s, false) else
  let w := region.maxX - region.minX
  let h := region.maxY - region.minY
  let dbase := region.minY * s.stride + region.minX
  let b2 := (List.range h).foldl (fun bb y =>
    fillRadial bb fill (dbase + y * s.stride) (region.minY + y) region.minX w) s.buf
  ({ s with buf := b2 }, true)

/-- `_rasterRadialGradientRect` (`tvgSwRaster.cpp:1633`); unlike the linear
dispatcher, the non-composited solid branch returns its callee's result. -/
def _rasterRadialGradientRect (s : SwSurface) (region : SwBBox) (fill : SwFill) :
    SwSurface × Bool :=
  if _compositing s then
    if _matting s then _rasterRadialGradientMattedRect s region fill
    else _rasterRadialGradientMaskedRect s region fill
  else
    if fill.translucent then _rasterTranslucentRadialGradientRect s region fill
    else _rasterSolidRadialGradientRect s region fill

/-! ## Premultiply / unpremultiply (`tvgSwRaster.cpp:1833-1880`) -/

/-- Bit mask `x & 0x00ff00ff`: keeps byte lanes 0 and 2. -/
def mask00ff00ff (x : Nat) : Nat := x % 0x100 + x / 0x10000 % 0x100 * 0x10000

/-- Per-pixel body of `rasterPremultiply`:
`(c & 0xff000000) + ((((c >> 8) & 0xff) * a) & 0xff00) + ((((c & 0x00ff00ff) * a) >> 8) & 0x00ff00ff)`
with `a = c >> 24`, on a u32 word `c`. -/
def premultiplyPix (c : Nat) : Nat :=
  let a := c / 0x1000000
  c / 0x1000000 % 0x100 * 0x1000000
    + c / 0x100 % 0x100 * a / 0x100 % 0x100 * 0x100
    + mask00ff00ff (mask00ff00ff c * a / 0x100)

/-- Per-pixel body of `rasterUnpremultiply`: keep `a == 255` pixels, map
`a == 0` to `0x00ffffff`, otherwise divide the shifted channels
`((c >> 8) & 0xff00) / a`, `(c & 0xff00) / a`, `((c << 8) & 0xff00) / a`,
clamp each to `0xff` and repack `(a << 24) | (r << 16) | (g << 8) | b`. -/
def unpremultiplyPix (c : Nat) : Nat :=
  let a := c / 0x1000000 % 0x100
  if a = 255 then c
  else if a = 0 then 0x00ffffff
  else
    let r := c / 0x10000 % 0x100 * 0x100 / a
    let g := c / 0x100 % 0x100 * 0x100 / a
    let b := c % 0x100 * 0x100 / a
    let r := if 0xff < r then 0xff else r
    let g := if 0xff < g then 0xff else g
    let b := if 0xff < b then 0xff else b
    a * 0x1000000 + r * 0x10000 + g * 0x100 + b

/-- `rasterPremultiply(surface)` (`tvgSwRaster.cpp:1863`): on 4-byte-channel
surfaces, apply `premultiplyPix` to every pixel of the `w x h` region, rows
`stride` apart (the `premultiplied` flag is not part of this model). -/
def rasterPremultiply (s : SwSurface) : SwSurface :=
  if s.channelSize ≠ 4 then s
  else { s with buf := regionMap s.buf 0 s.stride s.w s.h premultiplyPix }

/-- `rasterUnpremultiply(surface)` (`tvgSwRaster.cpp:1833`). -/
def rasterUnpremultiply (s : SwSurface) : SwSurface :=
  if s.channelSize ≠ 4 then s
  else { s with buf := regionMap s.buf 0 s.stride s.w s.h unpremultiplyPix }

/-! ## Blender configuration (`rasterCompositor`, `tvgSwRaster.cpp:1778`) -/

/-- `rasterCompositor(surface)`: `alphas[0]` and `alphas[1]` are stored
before the colour-space dispatch; an unsupported colour space then returns
`false` with `join`, `alphas[2]`, `alphas[3]` untouched. -/
def rasterCompositor (s : SwSurface) : SwSurface × Bool :=
  let bl := { s.blender with alphas0 := AlphaFn.fnALPHA, alphas1 := AlphaFn.fnIALPHA }
  if s.cs = ColorSpace.ABGR8888 ∨ s.cs = ColorSpace.ABGR8888S then
    let bl2 := { bl with
      join := JoinFn.fnAbgrJoin
      alphas2 := AlphaFn.fnAbgrLuma
      alphas3 := AlphaFn.fnAbgrInvLuma }
    ({ s with blender := bl2 }, true)
  else if s.cs = ColorSpace.ARGB8888 ∨ s.cs = ColorSpace.ARGB8888S then
    let bl2 := { bl with
      join := JoinFn.fnArgbJoin
      alphas2 := AlphaFn.fnArgbLuma
      alphas3 := AlphaFn.fnArgbInvLuma }
    ({ s with blender := bl2 }, true)
  else ({ s with blender := bl }, false)

/-! ## Box down-sampler (`_interpDownScaler`, `tvgSwRaster.cpp:150`) -/

/-- Byte 3 of a u32 word: `v >> 24`. -/
def byte3 (v : Nat) : Nat := v / 0x1000000

/-- Byte 2: `(v >> 16) & 0xff`. -/
def byte2 (v : Nat) : Nat := v / 0x10000 % 0x100

/-- Byte 1: `(v >> 8) & 0xff`. -/
def byte1 (v : Nat) : Nat := v / 0x100 % 0x100

/-- Byte 0: `v & 0xff`. -/
def byte0 (v : Nat) : Nat := v % 0x100

def dsInner (img : Buf) (w xs m c0 c1 c2 c3 src : Nat) : Nat × Nat × Nat × Nat :=
  (List.range m).foldl (fun cc k =>
    if w ≤ xs + k then cc
    else
      let v := img (src + k) % 0x100000000
      (cc.1 + byte3 v, cc.2.1 + byte2 v, cc.2.2.1 + byte1 v, cc.2.2.2 + byte0 v))
    (c0, c1, c2, c3)

/-- The row loop of `_interpDownScaler` over the listed `y` values,
threading the accumulators and the `src` pointer (a skipped row keeps
`src` where it was, exactly as the `continue` does). -/
def dsRows (img : Buf) (stride w h xs m : Nat) :
    List Nat → Nat × Nat × Nat × Nat × Nat → Nat × Nat × Nat × Nat × Nat
  | [], st => st
  | y :: ys, st =>
    dsRows img stride w h xs m ys
      (if h ≤ y then st
       else
         let cc := dsInner img w xs m st.1 st.2.1 st.2.2.1 st.2.2.2.1 st.2.2.2.2
         (cc.1, cc.2.1, cc.2.2.1, cc.2.2.2, st.2.2.2.2 + stride))

/-- `_interpDownScaler(img, stride, w, h, rx, ry, n)`: the 2n x 2n mean
kernel. All loop variables are `uint32_t`: the bounds `ry - n` / `rx - n`
wrap around below zero (`subU32`), and a wrapped start is at once >= the
bound, so the loop runs zero times. The skipping `continue` of a row with
`y >= h` also skips the `src += stride` advance (harmless, because rows
only grow). Loaded words are u32; the channel accumulators stay far below
`2 ^ 32` for every parameter range the theorems use. -/
def _interpDownScaler (img : Buf) (stride w h rx ry n : Nat) : Nat :=
  let n2 := n * n
  let ys := subU32 ry n
  let ye := (ry + n) % 0x100000000
  let xs := subU32 rx n
  let xe := (rx + n) % 0x100000000
  let st := dsRows img stride w h xs (xe - xs) (List.range' ys (ye - ys))
    (0, 0, 0, 0, xs + ys * stride)
  st.1 / 4 / n2 * 0x1000000 + st.2.1 / 4 / n2 * 0x10000
    + st.2.2.1 / 4 / n2 * 0x100 + st.2.2.2.1 / 4 / n2

/-- One row of the spec's box sum (s4.2): samples at integer abscissae
`rx - n + i`, `i < m`, skipping those outside `[0, w)`. -/
def specInner (img : Buf) (stride w rx n : Nat) (y : Int) (m : Nat)
    (sel : Nat → Nat) : Nat :=
  (List.range m).foldl (fun (acc2 : Nat) (i : Nat) =>
    let x : Int := (rx : Int) - (n : Int) + (i : Int)
    if x < 0 ∨ (w : Int) ≤ x then acc2
    else acc2 + sel (img (x + y * (stride : Int)).toNat % 0x100000000)) 0

/-- The spec's box sum over rows `ry - n + j`, `j < m`, skipping rows
outside `[0, h)`. -/
def specOuter (img : Buf) (stride w h rx ry n m : Nat) (sel : Nat → Nat) : Nat :=
  (List.range m).foldl (fun (acc : Nat) (j : Nat) =>
    let y : Int := (ry : Int) - (n : Int) + (j : Int)
    if y < 0 ∨ (h : Int) ≤ y then acc
    else acc + specInner img stride w rx n y (2 * n) sel) 0

/-- The spec's description of `downscale` (s4.2), written from its words
for comparison with `_interpDownScaler`: per channel, sum the samples of
the integer box `[rx - n, rx + n) x [ry - n, ry + n)` whose coordinates lie
inside `[0, w) x [0, h)` (out-of-range samples skipped), then floor-divide
by `(2n)^2 = 4 n^2`; pack the four channel results. -/
def downscaleSpec (img : Buf) (stride w h rx ry n : Nat) : Nat :=
  let chan := fun (sel : Nat → Nat) =>
    specOuter img stride w h rx ry n (2 * n) sel / (4 * n * n)
  chan byte3 * 0x1000000 + chan byte2 * 0x10000 + chan byte1 * 0x100 + chan byte0

/-! ## Direct RLE image (`_rasterDirectRleRGBAImage`, `tvgSwRaster.cpp:831`) -/

/-- `_rasterDirectRleRGBAImage(surface, image, opacity)`: per span, when
`MULTIPLY(span->coverage, opacity) == 255` the source performs one unlooped
store of the first pixel; otherwise it blends all `span->len` pixels. A
null `rle` would be dereferenced in C; the callers guarantee it, so the
`none` case just returns. -/
def _rasterDirectRleRGBAImage (s : SwSurface) (image : SwImage) (opacity : Nat) :
    SwSurface × Bool :=
  match image.rle with
  | none => (s, true)
  | some spans =>
    let b2 := spans.foldl (fun bb sp =>
      let dstAddr := sp.y * s.stride + sp.x
      let imgAddr := (sp.y + image.oy) * image.stride + (sp.x + image.ox)
      let alpha := MULTIPLY sp.coverage opacity
      if alpha = 255 then
        let src := image.buf imgAddr
        store bb dstAddr (addU32 src (ALPHA_BLEND (bb dstAddr) (IALPHA32 src)))
      else
        rowMapIdx bb dstAddr sp.len (fun x v =>
          let src := ALPHA_BLEND (image.buf (imgAddr + x)) alpha
          addU32 src (ALPHA_BLEND v (IALPHA32 src)))) s.buf
    ({ s with buf := b2 }, true)

/-! ## `SwRenderer::beginComposite` (`tvgSwRenderer.cpp:285`) -/

/-- Observable outcome of a successful `beginComposite(x, y, w, h)`:
dimensions of the allocated compositor buffer, the context image's bbox,
and the rectangle of the compositor that gets cleared (in compositor
image coordinates; the clear runs over `surface.w x surface.h` pixels from
the offset `stride * y + x`, with `stride = mainW`). -/
structure CompositeBegin where
  bufW : Nat
  bufH : Nat
  bbox : SwBBox
  clearRect : SwBBox
deriving DecidableEq

/-- `SwRenderer::beginComposite` on a main surface of extent
`mainW x mainH`: the buffer is allocated at `mainW * mainH` words; the
boundary check clamps `w`/`h` (the `x < 0`/`y < 0` tests are vacuous on
unsigned); then the `FIXME` block overwrites all four arguments with the
full surface before the bbox is set and the clear is performed. -/
def beginComposite (mainW mainH x y w h : Nat) : CompositeBegin :=
  let w1 := if mainW < x + w then mainW - x else w
  let h1 := if mainH < y + h then mainH - y else h
  let x2 := 0
  let y2 := 0
  let w2 := mainW
  let h2 := mainH
  let _ := (w1, h1)
  { bufW := mainW, bufH := mainH,
    bbox := { minX := x2, minY := y2, maxX := x2 + w2, maxY := y2 + h2 },
    clearRect := { minX := x2, minY := y2, maxX := x2 + w2, maxY := y2 + h2 } }

/-! ## Buffer-fold lemmas -/

theorem store_get_eq (b : Buf) (addr v : Nat) : store b addr v addr = v := by
  simp [store]

theorem store_get_ne (b : Buf) (addr v a : Nat) (h : a ≠ addr) :
    store b addr v a = b a := by
  simp [store, h]

theorem rowMap_succ (b : Buf) (base w : Nat) (f : Nat → Nat) :
    rowMap b base (w + 1) f =
      store (rowMap b base w f) (base + w) (f (rowMap b base w f (base + w))) := by
  unfold rowMap
  rw [List.range_succ, List.foldl_append]
  rfl

theorem rowMap_get_out (b : Buf) (base w : Nat) (f : Nat → Nat) (a : Nat)
    (h : a < base ∨ base + w ≤ a) : rowMap b base w f a = b a := by
  induction w with
  | zero => rfl
  | succ w ih =>
    rw [rowMap_succ]
    rw [store_get_ne _ _ _ _ (by omega)]
    exact ih (by omega)

theorem rowMap_get_in (b : Buf) (base w : Nat) (f : Nat → Nat) (x : Nat) (hx : x < w) :
    rowMap b base w f (base + x) = f (b (base + x)) := by
  induction w with
  | zero => omega
  | succ w ih =>
    rw [rowMap_succ]
    rcases Nat.lt_succ_iff_lt_or_eq.mp hx with hlt | heq
    · rw [store_get_ne _ _ _ _ (by omega)]
      exact ih hlt
    · subst heq
      rw [store_get_eq, rowMap_get_out _ _ _ _ _ (Or.inr (Nat.le_refl _))]

theorem regionMap_succ (b : Buf) (base stride w h : Nat) (f : Nat → Nat) :
    regionMap b base stride w (h + 1) f =
      rowMap (regionMap b base stride w h f) (base + h * stride) w f := by
  unfold regionMap
  rw [List.range_succ, List.foldl_append]
  rfl

theorem regionMap_get_out (b : Buf) (base stride w h : Nat) (f : Nat → Nat) (a : Nat)
    (hall : ∀ y, y < h → a < base + y * stride ∨ base + y * stride + w ≤ a) :
    regionMap b base stride w h f a = b a := by
  induction h with
  | zero => rfl
  | succ h ih =>
    rw [regionMap_succ]
    rw [rowMap_get_out _ _ _ _ _ (hall h (Nat.lt_succ_self h))]
    exact ih (fun y hy => hall y (Nat.lt_succ_of_lt hy))

theorem regionMap_get_in (b : Buf) (base stride w h : Nat) (f : Nat → Nat)
    (x y : Nat) (hw : w ≤ stride) (hx : x < w) (hy : y < h) :
    regionMap b base stride w h f (base + y * stride + x) =
      f (b (base + y * stride + x)) := by
  induction h with
  | zero => omega
  | succ h ih =>
    rw [regionMap_succ]
    rcases Nat.lt_succ_iff_lt_or_eq.mp hy with hlt | heq
    · rw [rowMap_get_out]
      · exact ih hlt
      · left
        have : y * stride + w ≤ h * stride := by
          calc y * stride + w ≤ y * stride + stride := by omega
          _ = (y + 1) * stride := by ring
          _ ≤ h * stride := Nat.mul_le_mul_right _ (by omega)
        omega
    · subst heq
      have harr : base + y * stride + x = (base + y * stride) + x := by omega
      rw [harr, rowMap_get_in _ _ _ _ _ hx]
      rw [regionMap_get_out]
      intro y2 hy2
      have : y2 * stride + w ≤ y * stride := by
        calc y2 * stride + w ≤ y2 * stride + stride := by omega
        _ = (y2 + 1) * stride := by ring
        _ ≤ y * stride := Nat.mul_le_mul_right _ (by omega)
      omega

/-- A span fold (each span a `rowMap` at its own window) leaves untouched
every address outside all windows. -/
theorem spanFold_get_out (lo ln : SwSpan → Nat) (g : SwSpan → Nat → Nat)
    (spans : List SwSpan) (b : Buf) (addr : Nat)
    (h : ∀ sp ∈ spans, addr < lo sp ∨ lo sp + ln sp ≤ addr) :
    (spans.foldl (fun b2 sp => rowMap b2 (lo sp) (ln sp) (g sp)) b) addr = b addr := by
  induction spans generalizing b with
  | nil => rfl
  | cons sp rest ih =>
    simp only [List.foldl_cons]
    rw [ih _ (fun sp2 hm => h sp2 (List.mem_cons_of_mem _ hm))]
    exact rowMap_get_out _ _ _ _ _ (h sp (List.mem_cons_self _ _))

/-- A span fold, at an address covered by exactly the middle span of the
decomposition `pre ++ sp :: suf`. -/
theorem spanFold_get_in (lo ln : SwSpan → Nat) (g : SwSpan → Nat → Nat)
    (pre suf : List SwSpan) (sp : SwSpan) (b : Buf) (x : Nat) (hx : x < ln sp)
    (hpre : ∀ sp2 ∈ pre, lo sp + x < lo sp2 ∨ lo sp2 + ln sp2 ≤ lo sp + x)
    (hsuf : ∀ sp2 ∈ suf, lo sp + x < lo sp2 ∨ lo sp2 + ln sp2 ≤ lo sp + x) :
    ((pre ++ sp :: suf).foldl (fun b2 sp2 => rowMap b2 (lo sp2) (ln sp2) (g sp2)) b)
      (lo sp + x) = g sp (b (lo sp + x)) := by
  rw [List.foldl_append, List.foldl_cons]
  rw [spanFold_get_out _ _ _ _ _ _ hsuf]
  rw [rowMap_get_in _ _ _ _ _ hx]
  rw [spanFold_get_out _ _ _ _ _ _ hpre]

/-! ## Down-sampler lemmas -/

/-- One-channel version of the inner accumulation of `dsInner`. -/
def dsRowSum (img : Buf) (w xs m src : Nat) (sel : Nat → Nat) : Nat :=
  (List.range m).foldl (fun acc k =>
    if w ≤ xs + k then acc else acc + sel (img (src + k) % 0x100000000)) 0

/-- One-channel total of the row loop: rows `y0, y0 + 1, …, y0 + m - 1`,
rows at or above `h` contributing nothing, row `y` sampled at source
offset `xs + y * stride`. -/
def dsTotal (img : Buf) (stride w h xs mI : Nat) (sel : Nat → Nat) :
    Nat → Nat → Nat
  | _, 0 => 0
  | y0, m + 1 =>
    (if h ≤ y0 then 0 else dsRowSum img w xs mI (xs + y0 * stride) sel) +
      dsTotal img stride w h xs mI sel (y0 + 1) m

theorem dsTotal_succ (img : Buf) (stride w h xs mI : Nat) (sel : Nat → Nat)
    (y0 m : Nat) :
    dsTotal img stride w h xs mI sel y0 (m + 1) =
      (if h ≤ y0 then 0 else dsRowSum img w xs mI (xs + y0 * stride) sel) +
        dsTotal img stride w h xs mI sel (y0 + 1) m := rfl

theorem dsRowSum_succ (img : Buf) (w xs m src : Nat) (sel : Nat → Nat) :
    dsRowSum img w xs (m + 1) src sel =
      dsRowSum img w xs m src sel +
        (if w ≤ xs + m then 0 else sel (img (src + m) % 0x100000000)) := by
  unfold dsRowSum
  rw [List.range_succ, List.foldl_append]
  by_cases hg : w ≤ xs + m <;> simp [hg]

theorem dsInner_succ (img : Buf) (w xs m c0 c1 c2 c3 src : Nat) :
    dsInner img w xs (m + 1) c0 c1 c2 c3 src =
      (let cc := dsInner img w xs m c0 c1 c2 c3 src
       if w ≤ xs + m then cc
       else
         let v := img (src + m) % 0x100000000
         (cc.1 + byte3 v, cc.2.1 + byte2 v, cc.2.2.1 + byte1 v, cc.2.2.2 + byte0 v)) := by
  unfold dsInner
  rw [List.range_succ, List.foldl_append]
  rfl

theorem dsInner_eq (img : Buf) (w xs src : Nat) (m c0 c1 c2 c3 : Nat) :
    dsInner img w xs m c0 c1 c2 c3 src =
      (c0 + dsRowSum img w xs m src byte3, c1 + dsRowSum img w xs m src byte2,
       c2 + dsRowSum img w xs m src byte1, c3 + dsRowSum img w xs m src byte0) := by
  induction m with
  | zero => simp [dsInner, dsRowSum]
  | succ m ih =>
    rw [dsInner_succ, ih]
    by_cases hg : w ≤ xs + m <;>
      (simp [hg, dsRowSum_succ, Prod.ext_iff]; try omega)

/-- Once the current row index reaches `h`, every later row is skipped. -/
theorem dsRows_skip (img : Buf) (stride w h xs mI : Nat) (m y0 : Nat)
    (hy : h ≤ y0) (st : Nat × Nat × Nat × Nat × Nat) :
    dsRows img stride w h xs mI (List.range' y0 m) st = st := by
  induction m generalizing y0 st with
  | zero => rfl
  | succ m ih =>
    rw [List.range'_succ]
    simp only [dsRows, if_pos hy]
    exact ih (y0 + 1) (by omega) st

theorem dsTotal_skip (img : Buf) (stride w h xs mI : Nat) (sel : Nat → Nat)
    (m y0 : Nat) (hy : h ≤ y0) : dsTotal img stride w h xs mI sel y0 m = 0 := by
  induction m generalizing y0 with
  | zero => rfl
  | succ m ih =>
    unfold dsTotal
    rw [if_pos hy, ih (y0 + 1) (by omega)]

theorem dsRows_eq (img : Buf) (stride w h xs mI : Nat) (m : Nat) :
    ∀ (y0 c0 c1 c2 c3 : Nat),
      (dsRows img stride w h xs mI (List.range' y0 m)
          (c0, c1, c2, c3, xs + y0 * stride)).1 =
        c0 + dsTotal img stride w h xs mI byte3 y0 m ∧
      (dsRows img stride w h xs mI (List.range' y0 m)
          (c0, c1, c2, c3, xs + y0 * stride)).2.1 =
        c1 + dsTotal img stride w h xs mI byte2 y0 m ∧
      (dsRows img stride w h xs mI (List.range' y0 m)
          (c0, c1, c2, c3, xs + y0 * stride)).2.2.1 =
        c2 + dsTotal img stride w h xs mI byte1 y0 m ∧
      (dsRows img stride w h xs mI (List.range' y0 m)
          (c0, c1, c2, c3, xs + y0 * stride)).2.2.2.1 =
        c3 + dsTotal img stride w h xs mI byte0 y0 m := by
  induction m with
  | zero => intro y0 c0 c1 c2 c3; simp [dsRows, dsTotal]
  | succ m ih =>
    intro y0 c0 c1 c2 c3
    rw [List.range'_succ]
    simp only [dsRows]
    by_cases hy : h ≤ y0
    · simp only [if_pos hy]
      rw [dsRows_skip img stride w h xs mI m (y0 + 1) (by omega)]
      unfold dsTotal
      simp only [if_pos hy, dsTotal_skip img stride w h xs mI _ m (y0 + 1) (by omega)]
      omega
    · simp only [if_neg hy, dsInner_eq]
      have hsrc : xs + y0 * stride + stride = xs + (y0 + 1) * stride := by ring
      rw [hsrc]
      have hmain := ih (y0 + 1) (c0 + dsRowSum img w xs mI (xs + y0 * stride) byte3)
        (c1 + dsRowSum img w xs mI (xs + y0 * stride) byte2)
        (c2 + dsRowSum img w xs mI (xs + y0 * stride) byte1)
        (c3 + dsRowSum img w xs mI (xs + y0 * stride) byte0)
      unfold dsTotal
      simp only [if_neg hy]
      refine ⟨?_, ?_, ?_, ?_⟩
      · rw [hmain.1]; omega
      · rw [hmain.2.1]; omega
      · rw [hmain.2.2.1]; omega
      · rw [hmain.2.2.2]; omega

theorem subU32_eq (a b : Nat) (hb : b ≤ a) (ha : a < 0x100000000)
    (hbb : b < 0x100000000) : subU32 a b = a - b := by
  unfold subU32
  omega

theorem specInner_succ (img : Buf) (stride w rx n : Nat) (y : Int) (m : Nat)
    (sel : Nat → Nat) :
    specInner img stride w rx n y (m + 1) sel =
      specInner img stride w rx n y m sel +
        (if (rx : Int) - (n : Int) + (m : Int) < 0 ∨
            (w : Int) ≤ (rx : Int) - (n : Int) + (m : Int) then 0
         else sel (img ((rx : Int) - (n : Int) + (m : Int) + y * (stride : Int)).toNat
            % 0x100000000)) := by
  unfold specInner
  rw [List.range_succ, List.foldl_append, List.foldl_cons, List.foldl_nil]
  by_cases hg : (rx : Int) - (n : Int) + (m : Int) < 0 ∨
      (w : Int) ≤ (rx : Int) - (n : Int) + (m : Int) <;> simp [hg]

theorem specInner_eq_dsRowSum (img : Buf) (stride w rx n : Nat) (hrx : n ≤ rx)
    (yv m : Nat) (sel : Nat → Nat) :
    specInner img stride w rx n (yv : Int) m sel =
      dsRowSum img w (rx - n) m (rx - n + yv * stride) sel := by
  induction m with
  | zero => rfl
  | succ m ih =>
    rw [specInner_succ, dsRowSum_succ, ih]
    have hcast : (rx : Int) - (n : Int) + (m : Int) = ((rx - n + m : Nat) : Int) := by
      push_cast
      omega
    by_cases hg : w ≤ rx - n + m
    · have hg2 : (rx : Int) - (n : Int) + (m : Int) < 0 ∨
          (w : Int) ≤ (rx : Int) - (n : Int) + (m : Int) := by
        right
        rw [hcast]
        exact_mod_cast hg
      rw [if_pos hg2, if_pos hg]
    · have hg2 : ¬ ((rx : Int) - (n : Int) + (m : Int) < 0 ∨
          (w : Int) ≤ (rx : Int) - (n : Int) + (m : Int)) := by
        rw [hcast]
        push_neg
        constructor
        · exact_mod_cast Int.natCast_nonneg _
        · exact_mod_cast Nat.lt_of_not_le hg
      rw [if_neg hg2, if_neg hg]
      congr 3
      have hfin : (rx : Int) - (n : Int) + (m : Int) + (yv : Int) * (stride : Int) =
          ((rx - n + yv * stride + m : Nat) : Int) := by
        push_cast
        omega
      rw [hfin, Int.toNat_natCast]

theorem specOuterAux (img : Buf) (stride w h rx ry n : Nat) (hrx : n ≤ rx)
    (hry : n ≤ ry) (sel : Nat → Nat) (m : Nat) :
    ∀ (j0 : Nat) (acc : Nat),
      (List.range' j0 m).foldl (fun (acc : Nat) (j : Nat) =>
        let y : Int := (ry : Int) - (n : Int) + (j : Int)
        if y < 0 ∨ (h : Int) ≤ y then acc
        else acc + specInner img stride w rx n y (2 * n) sel) acc =
      acc + dsTotal img stride w h (rx - n) (2 * n) sel (ry - n + j0) m := by
  induction m with
  | zero => intro j0 acc; simp [dsTotal]
  | succ m ih =>
    intro j0 acc
    rw [List.range'_succ, List.foldl_cons]
    have hycast : (ry : Int) - (n : Int) + (j0 : Int) = ((ry - n + j0 : Nat) : Int) := by
      push_cast
      omega
    by_cases hg : h ≤ ry - n + j0
    · have hg2 : ((ry : Int) - (n : Int) + (j0 : Int) < 0 ∨
          (h : Int) ≤ (ry : Int) - (n : Int) + (j0 : Int)) := by
        right
        rw [hycast]
        exact_mod_cast hg
      simp only [if_pos hg2]
      rw [ih (j0 + 1) acc, dsTotal_succ]
      rw [if_pos hg]
      have hstep : ry - n + j0 + 1 = ry - n + (j0 + 1) := by omega
      rw [hstep]
      omega
    · have hg2 : ¬ ((ry : Int) - (n : Int) + (j0 : Int) < 0 ∨
          (h : Int) ≤ (ry : Int) - (n : Int) + (j0 : Int)) := by
        rw [hycast]
        push_neg
        constructor
        · exact_mod_cast Int.natCast_nonneg _
        · exact_mod_cast Nat.lt_of_not_le hg
      simp only [if_neg hg2]
      rw [hycast, specInner_eq_dsRowSum img stride w rx n hrx (ry - n + j0) (2 * n) sel]
      rw [ih (j0 + 1) _, dsTotal_succ]
      rw [if_neg hg]
      have hstep : ry - n + j0 + 1 = ry - n + (j0 + 1) := by omega
      rw [hstep]
      omega

theorem specOuter_eq (img : Buf) (stride w h rx ry n : Nat) (hrx : n ≤ rx)
    (hry : n ≤ ry) (sel : Nat → Nat) :
    specOuter img stride w h rx ry n (2 * n) sel =
      dsTotal img stride w h (rx - n) (2 * n) sel (ry - n) (2 * n) := by
  unfold specOuter
  rw [List.range_eq_range']
  rw [specOuterAux img stride w h rx ry n hrx hry sel (2 * n) 0 0]
  simp

/-! ## Helper lemmas for the claim theorems -/

/-- The compositor buffer of a surface (zero function when none is
attached; every use is guarded by a `compositor = some _` hypothesis). -/
def compBufOf (s : SwSurface) : Buf :=
  match s.compositor with
  | some c => c.buf
  | none => fun _ => 0

/-- Both join routines place the alpha argument in bits 24-31. -/
theorem ALPHA32_join (j : JoinFn) (r g b a : Nat) (hr : r < 256) (hg : g < 256)
    (hb : b < 256) (ha : a < 256) (hj : j = .fnAbgrJoin ∨ j = .fnArgbJoin) :
    ALPHA32 (j.apply r g b a) = a := by
  rcases hj with h | h <;> subst h <;>
    (simp [JoinFn.apply, _abgrJoin, _argbJoin, ALPHA32]; omega)

theorem regionMap_get_in0 (b : Buf) (stride w h : Nat) (f : Nat → Nat) (x y : Nat)
    (hw : w ≤ stride) (hx : x < w) (hy : y < h) :
    regionMap b 0 stride w h f (y * stride + x) = f (b (y * stride + x)) := by
  have hmain := regionMap_get_in b 0 stride w h f x y hw hx hy
  simpa using hmain

/-- Repacking byte lanes puts `A` back into the alpha byte. -/
theorem repack_alpha (A R G B : Nat) (hA : A < 256) (hR : R ≤ 255) (hG : G ≤ 255)
    (hB : B ≤ 255) :
    (A * 0x1000000 + R * 0x10000 + G * 0x100 + B) / 0x1000000 % 0x100 = A := by
  omega

/-- For a fully opaque pixel, `premultiplyPix` maps each colour byte `v` to
`(v * 255) >> 8`, i.e. `v - 1` for `v >= 1` (truncating multiplication, not
the identity). -/
theorem premulPix_opaque (r g b : Nat) (hr : r < 256) (hg : g < 256) (hb : b < 256) :
    premultiplyPix (0xFF000000 + r * 0x10000 + g * 0x100 + b) =
      0xFF000000 + r * 255 / 0x100 * 0x10000 + g * 255 / 0x100 * 0x100 + b * 255 / 0x100 := by
  unfold premultiplyPix mask00ff00ff
  dsimp only
  rw [show (0xFF000000 + r * 0x10000 + g * 0x100 + b) / 0x1000000 = 255 from by omega]
  rw [show (0xFF000000 + r * 0x10000 + g * 0x100 + b) % 0x100 = b from by omega]
  rw [show (0xFF000000 + r * 0x10000 + g * 0x100 + b) / 0x10000 % 0x100 = r from by omega]
  rw [show (0xFF000000 + r * 0x10000 + g * 0x100 + b) / 0x100 % 0x100 = g from by omega]
  have hsplit : (b + r * 0x10000) * 255 / 0x100 = r * 255 * 0x100 + b * 255 / 0x100 := by
    rw [show (b + r * 0x10000) * 255 = b * 255 + r * 255 * 0x10000 from by ring]
    omega
  rw [hsplit]
  rw [show (r * 255 * 0x100 + b * 255 / 0x100) % 0x100 = b * 255 / 0x100 from by omega]
  have hgen : ∀ E : Nat, E < 0x100 →
      (r * 255 * 0x100 + E) / 0x10000 % 0x100 = r * 255 / 0x100 := by
    intro E hE
    rw [show (0x10000 : Nat) = 0x100 * 0x100 from rfl, ← Nat.div_div_eq_div_mul]
    rw [show (r * 255 * 0x100 + E) / 0x100 = r * 255 from by omega]
    omega
  rw [hgen (b * 255 / 0x100) (by omega)]
  omega

theorem unpremulPix_opaque (p : Nat) (hp : p / 0x1000000 % 0x100 = 255) :
    unpremultiplyPix p = p := by
  unfold unpremultiplyPix
  dsimp only
  rw [if_pos hp]

theorem unpremulPix_zero (p : Nat) (hp : p / 0x1000000 % 0x100 = 0) :
    unpremultiplyPix p = 0x00ffffff := by
  unfold unpremultiplyPix
  dsimp only
  rw [if_neg (by omega), if_pos hp]

/-- `unpremultiplyPix` never changes the alpha byte. -/
theorem unpremulPix_alpha (p : Nat) :
    unpremultiplyPix p / 0x1000000 % 0x100 = p / 0x1000000 % 0x100 := by
  unfold unpremultiplyPix
  dsimp only
  split_ifs <;> first
    | rfl
    | omega
    | (apply repack_alpha <;> omega)

/-! ## Claim theorems -/

/-- A configured blender (the ABGR8888 result of `rasterCompositor`), used
by the concrete fixtures. -/
def fixBlender : SwBlender :=
  ⟨.fnAbgrJoin, .fnALPHA, .fnIALPHA, .fnAbgrLuma, .fnAbgrInvLuma⟩

def c1Compositor : SwCompositor :=
  ⟨CompositeMethod.IntersectMask, fun _ => 0xDEADBEEF, 10, ⟨0, 0, 10, 10⟩⟩

def c1Surface : SwSurface :=
  ⟨fun _ => 0, 10, 10, 10, 4, .ABGR8888, fixBlender, some c1Compositor⟩

def c1Region : SwBBox := ⟨5, 5, 7, 7⟩

/-- Claim C1: the claim states that an `IntersectMask` solid rect fill zeroes
every compositor pixel inside the compositor bbox but outside the filled
region. Evaluating `_rasterMaskedRect` on a 10 x 10 compositor bbox
pre-filled with `0xDEADBEEF` and region `[5,7) x [5,7)` shows the rows above
and below the region only have the first `w = 2` pixels of the row zeroed
(the source passes the region width `w`, not the bbox width, to the row
clear): the pixel `(9, 0)` - inside the bbox, outside the region - keeps its
old value, while `(1, 0)` is zeroed. -/
theorem C1_intersect_out_of_region_eval :
    compBufOf (_rasterMaskedRect c1Surface c1Region 255 255 255 255).1 9 = 0xDEADBEEF ∧
    compBufOf (_rasterMaskedRect c1Surface c1Region 255 255 255 255).1 1 = 0 ∧
    (0xDEADBEEF : Nat) ≠ 0 := by
  decide

def c2Surface : SwSurface :=
  ⟨fun _ => 0xFFFFFFFF, 1, 1, 1, 4, .ABGR8888, fixBlender, none⟩

/-- Claim C2, counterexample: the fully opaque pixel `0xFFFFFFFF` does not
survive the premultiply / unpremultiply round trip: `rasterPremultiply`
multiplies each colour byte with the truncating `(v * a) >> 8`, so
`255 -> 254`, and `rasterUnpremultiply` leaves `a == 255` pixels alone,
giving `0xFFFEFEFE /= 0xFFFFFFFF`. -/
theorem C2_roundtrip_counterexample :
    c2Surface.buf 0 = 0xFFFFFFFF ∧
    c2Surface.buf 0 / 0x1000000 % 0x100 = 255 ∧
    (rasterUnpremultiply (rasterPremultiply c2Surface)).buf 0 = 0xFFFEFEFE ∧
    (0xFFFEFEFE : Nat) ≠ 0xFFFFFFFF := by
  decide

/-- Claim C2, amended: for every in-bounds pixel of a 4-byte-channel
surface whose alpha byte is 255, the round trip maps each colour byte `v`
to `(v * 255) >> 8` (so `v - 1` for `v >= 1`, identity only at `v = 0`) and
keeps the alpha byte; and for every pixel whose alpha byte is 0,
`rasterUnpremultiply` maps it to `0x00FFFFFF` (this clause of the original
claim holds as stated). -/
theorem C2_roundtrip_amended :
    (∀ (s : SwSurface) (x y r g b : Nat), s.channelSize = 4 → s.w ≤ s.stride →
      x < s.w → y < s.h → r < 256 → g < 256 → b < 256 →
      s.buf (y * s.stride + x) = 0xFF000000 + r * 0x10000 + g * 0x100 + b →
      (rasterUnpremultiply (rasterPremultiply s)).buf (y * s.stride + x) =
        0xFF000000 + r * 255 / 0x100 * 0x10000 + g * 255 / 0x100 * 0x100 +
          b * 255 / 0x100) ∧
    (∀ (s : SwSurface) (x y : Nat), s.channelSize = 4 → s.w ≤ s.stride →
      x < s.w → y < s.h → s.buf (y * s.stride + x) / 0x1000000 % 0x100 = 0 →
      (rasterUnpremultiply s).buf (y * s.stride + x) = 0x00ffffff) := by
  constructor
  · intro s x y r g b hcs hw hx hy hr hg hb hpix
    unfold rasterPremultiply rasterUnpremultiply
    simp only [hcs]
    norm_num
    rw [regionMap_get_in0 _ _ _ _ _ _ _ hw hx hy]
    rw [regionMap_get_in0 _ _ _ _ _ _ _ hw hx hy]
    rw [hpix, premulPix_opaque r g b hr hg hb]
    have hA : r * 255 / 0x100 ≤ 255 := by omega
    have hB : g * 255 / 0x100 ≤ 255 := by omega
    have hC : b * 255 / 0x100 ≤ 255 := by omega
    refine unpremulPix_opaque _ ?_
    rw [show (0xFF000000 : Nat) = 255 * 0x1000000 from rfl]
    exact repack_alpha 255 _ _ _ (by omega) hA hB hC
  · intro s x y hcs hw hx hy hpix
    unfold rasterUnpremultiply
    simp only [hcs]
    norm_num
    rw [regionMap_get_in0 _ _ _ _ _ _ _ hw hx hy]
    exact unpremulPix_zero _ hpix

def c2wSurface : SwSurface :=
  ⟨fun _ => 0xFF804020, 1, 1, 1, 4, .ABGR8888, fixBlender, none⟩

def c2zSurface : SwSurface :=
  ⟨fun _ => 0x00123456, 1, 1, 1, 4, .ABGR8888, fixBlender, none⟩

/-- Witness for the amended claim C2, at the opaque pixel `0xFF804020` and
the transparent pixel `0x00123456`. -/
theorem C2_roundtrip_witness :
    (c2wSurface.channelSize = 4 ∧ c2wSurface.w ≤ c2wSurface.stride ∧
      0 < c2wSurface.w ∧ 0 < c2wSurface.h ∧
      c2wSurface.buf (0 * c2wSurface.stride + 0) =
        0xFF000000 + 0x80 * 0x10000 + 0x40 * 0x100 + 0x20 ∧
      c2zSurface.buf (0 * c2zSurface.stride + 0) / 0x1000000 % 0x100 = 0) ∧
    (rasterUnpremultiply (rasterPremultiply c2wSurface)).buf (0 * c2wSurface.stride + 0) =
      0xFF000000 + 0x80 * 255 / 0x100 * 0x10000 + 0x40 * 255 / 0x100 * 0x100 +
        0x20 * 255 / 0x100 ∧
    (rasterUnpremultiply c2zSurface).buf (0 * c2zSurface.stride + 0) = 0x00ffffff :=
  ⟨by decide,
   C2_roundtrip_amended.1 c2wSurface 0 0 0x80 0x40 0x20 rfl (by decide) (by decide)
     (by decide) (by decide) (by decide) (by decide) (by decide),
   C2_roundtrip_amended.2 c2zSurface 0 0 rfl (by decide) (by decide) (by decide)
     (by decide)⟩

def c3Fill : SwFill := ⟨⟨1, fun _ _ => 0xFF123456⟩, ⟨1, fun _ _ => 0xFF654321⟩, false⟩

def c3Surface : SwSurface := ⟨fun _ => 0, 4, 4, 4, 4, .ABGR8888, fixBlender, none⟩

def c3Region : SwBBox := ⟨0, 0, 2, 2⟩

/-- Claim C3: the claim (following the spec note) states that both rect
gradient rasterizers return `true` on the non-composited solid path after
successfully rendering. Evaluating the code on a non-degenerate,
non-translucent fill shows `_rasterLinearGradientRect` renders (pixel
`(0,0)` receives the gradient colour) but returns `false` - its solid
branch discards the callee result and falls through to `return false` -
while `_rasterRadialGradientRect` returns `true` from the same path. -/
theorem C3_solid_gradient_rect_eval :
    ¬ (c3Fill.linear.len < FLT_EPSILON) ∧
    ¬ (c3Fill.radial.a < FLT_EPSILON) ∧
    c3Fill.translucent = false ∧
    (_rasterLinearGradientRect c3Surface c3Region c3Fill).2 = false ∧
    (_rasterLinearGradientRect c3Surface c3Region c3Fill).1.buf 0 = 0xFF123456 ∧
    (_rasterRadialGradientRect c3Surface c3Region c3Fill).2 = true := by
  decide

def c4Image : SwImage := ⟨fun a => 0xFF000000 + a, 4, 4, 4, 0, 0, some [⟨0, 0, 2, 255⟩]⟩

def c4Surface : SwSurface := ⟨fun _ => 0, 4, 4, 4, 4, .ABGR8888, fixBlender, none⟩

/-- Claim C4: the claim states the `alpha == 255` fast path of
`_rasterDirectRleRGBAImage` blends the image into all `span->len`
destination pixels. Evaluating the code on a single span
`{x = 0, y = 0, len = 2, coverage = 255}` at opacity 255 over a zeroed
destination shows only `dst[0]` is written (`0xFF000000`); `dst[1]` stays
0 although the claim requires it to become the blended image pixel
`0xFF000001`. -/
theorem C4_direct_rle_fast_path_eval :
    MULTIPLY 255 255 = 255 ∧
    (_rasterDirectRleRGBAImage c4Surface c4Image 255).1.buf 0 = 0xFF000000 ∧
    (_rasterDirectRleRGBAImage c4Surface c4Image 255).1.buf 1 = 0 ∧
    c4Image.buf 1 = 0xFF000001 ∧
    (0 : Nat) ≠ 0xFF000001 := by
  decide

def c5Fill : SwFill := ⟨⟨1, fun _ _ => 0⟩, ⟨0, fun _ _ => 0xFF000000⟩, false⟩

def c5Compositor : SwCompositor := ⟨CompositeMethod.AddMask, fun _ => 0, 4, ⟨0, 0, 4, 4⟩⟩

def c5Surface : SwSurface := ⟨fun _ => 0, 4, 4, 4, 4, .ABGR8888, fixBlender, some c5Compositor⟩

def c5Region : SwBBox := ⟨1, 1, 3, 3⟩

/-- Claim C5: the claim states that every radial-gradient raster call
rejects the fill with a clean `false` and no side effects exactly when
`radial.a < FLT_EPSILON`. Evaluating `_rasterRadialGradientMaskedRect`
(AddMask) on a fill with `radial.a = 0 < eps` but `linear.len = 1 >= eps`
shows the call does not reject: it writes the compositor (pixel `(1, 1)`
becomes `0xFF000000`) and returns `true`, because the masked rect and
masked RLE radial variants test `fill->linear.len`, not `fill->radial.a`. -/
theorem C5_radial_masked_guard_eval :
    c5Fill.radial.a < FLT_EPSILON ∧
    ¬ (c5Fill.linear.len < FLT_EPSILON) ∧
    (_rasterRadialGradientMaskedRect c5Surface c5Region c5Fill).2 = true ∧
    compBufOf (_rasterRadialGradientMaskedRect c5Surface c5Region c5Fill).1 5 = 0xFF000000 ∧
    c5Compositor.buf 5 = 0 := by
  decide

/-- Claim C6: under `AddMask` compositing, each compositor pixel of the
iteration domain is updated to `src + ALPHA_BLEND(cmp, 255 - alpha(src))`,
where `src` is the joined (premultiplied) colour scaled by the coverage:
the colour itself for a rect (coverage 255), `rleSrc` for an RLE span.
First conjunct: the rect fill `_rasterMaskedRect`, at offset `(x, y)` inside
the region. Second conjunct: the RLE fill `_rasterMaskedRle`, at offset `x`
inside a span `sp` whose pixels are touched by no other span. -/
theorem C6_addMask_update_formula :
    (∀ (s : SwSurface) (comp : SwCompositor) (region : SwBBox) (r g b a x y : Nat),
      s.compositor = some comp → comp.method = .AddMask → s.channelSize = 4 →
      (s.blender.join = .fnAbgrJoin ∨ s.blender.join = .fnArgbJoin) →
      r < 256 → g < 256 → b < 256 → a < 256 →
      region.maxX - region.minX ≤ comp.stride →
      x < region.maxX - region.minX → y < region.maxY - region.minY →
      compBufOf (_rasterMaskedRect s region r g b a).1
          (region.minY * comp.stride + region.minX + y * comp.stride + x) =
        addU32 (s.blender.join.apply r g b a)
          (ALPHA_BLEND
            (comp.buf (region.minY * comp.stride + region.minX + y * comp.stride + x))
            (255 - ALPHA32 (s.blender.join.apply r g b a)))) ∧
    (∀ (s : SwSurface) (comp : SwCompositor) (pre suf : List SwSpan) (sp : SwSpan)
        (r g b a x : Nat),
      s.compositor = some comp → comp.method = .AddMask → s.channelSize = 4 →
      x < sp.len →
      (∀ sp2 ∈ pre, sp.y * comp.stride + sp.x + x < sp2.y * comp.stride + sp2.x ∨
        sp2.y * comp.stride + sp2.x + sp2.len ≤ sp.y * comp.stride + sp.x + x) →
      (∀ sp2 ∈ suf, sp.y * comp.stride + sp.x + x < sp2.y * comp.stride + sp2.x ∨
        sp2.y * comp.stride + sp2.x + sp2.len ≤ sp.y * comp.stride + sp.x + x) →
      compBufOf (_rasterMaskedRle s (pre ++ sp :: suf) r g b a).1
          (sp.y * comp.stride + sp.x + x) =
        addU32 (rleSrc (s.blender.join.apply r g b a) sp)
          (ALPHA_BLEND (comp.buf (sp.y * comp.stride + sp.x + x))
            (255 - ALPHA32 (rleSrc (s.blender.join.apply r g b a) sp)))) := by
  constructor
  · intro s comp region r g b a x y hc hm hcs hj hr hg hb ha hw hx hy
    unfold _rasterMaskedRect
    rw [hc]
    simp only [hcs, hm, compBufOf, _rasterDirectRGBAImage]
    norm_num
    rw [regionMap_get_in _ _ _ _ _ _ _ _ hw hx hy]
    rw [ALPHA32_join _ _ _ _ _ hr hg hb ha hj]
  · intro s comp pre suf sp r g b a x hc hm hcs hx hpre hsuf
    unfold _rasterMaskedRle
    rw [hc]
    simp only [hcs, hm, compBufOf, _rasterDirectRGBAImage]
    norm_num
    rw [spanFold_get_out (fun sp2 => sp2.y * comp.stride + sp2.x) (fun sp2 => sp2.len)
      (fun sp2 v => addU32 (rleSrc (s.blender.join.apply r g b a) sp2)
        (ALPHA_BLEND v (IALPHA32 (rleSrc (s.blender.join.apply r g b a) sp2))))
      suf _ _ hsuf]
    rw [rowMap_get_in _ _ _ _ _ hx]
    rw [spanFold_get_out (fun sp2 => sp2.y * comp.stride + sp2.x) (fun sp2 => sp2.len)
      (fun sp2 v => addU32 (rleSrc (s.blender.join.apply r g b a) sp2)
        (ALPHA_BLEND v (IALPHA32 (rleSrc (s.blender.join.apply r g b a) sp2))))
      pre _ _ hpre]
    rfl

def c6Compositor : SwCompositor := ⟨CompositeMethod.AddMask, fun _ => 0x40404040, 4, ⟨0, 0, 4, 4⟩⟩

def c6Surface : SwSurface := ⟨fun _ => 0, 4, 4, 4, 4, .ABGR8888, fixBlender, some c6Compositor⟩

def c6Region : SwBBox := ⟨1, 1, 3, 3⟩

def c6Span : SwSpan := ⟨1, 2, 2, 128⟩

/-- Witness for claim C6: a 2 x 2 rect at `(1, 1)` and a single span at
`(1, 2)` with coverage 128, over a compositor pre-filled with
`0x40404040`. -/
theorem C6_addMask_witness :
    (c6Surface.compositor = some c6Compositor ∧
      c6Compositor.method = CompositeMethod.AddMask ∧
      c6Surface.channelSize = 4 ∧
      (c6Surface.blender.join = JoinFn.fnAbgrJoin ∨
        c6Surface.blender.join = JoinFn.fnArgbJoin) ∧
      (10 : Nat) < 256 ∧ (20 : Nat) < 256 ∧ (30 : Nat) < 256 ∧ (128 : Nat) < 256 ∧
      c6Region.maxX - c6Region.minX ≤ c6Compositor.stride ∧
      (0 : Nat) < c6Region.maxX - c6Region.minX ∧
      (0 : Nat) < c6Region.maxY - c6Region.minY ∧
      (1 : Nat) < c6Span.len) ∧
    compBufOf (_rasterMaskedRect c6Surface c6Region 10 20 30 128).1
        (c6Region.minY * c6Compositor.stride + c6Region.minX +
          0 * c6Compositor.stride + 0) =
      addU32 (c6Surface.blender.join.apply 10 20 30 128)
        (ALPHA_BLEND
          (c6Compositor.buf (c6Region.minY * c6Compositor.stride + c6Region.minX +
            0 * c6Compositor.stride + 0))
          (255 - ALPHA32 (c6Surface.blender.join.apply 10 20 30 128))) ∧
    compBufOf (_rasterMaskedRle c6Surface ([] ++ c6Span :: []) 10 20 30 128).1
        (c6Span.y * c6Compositor.stride + c6Span.x + 1) =
      addU32 (rleSrc (c6Surface.blender.join.apply 10 20 30 128) c6Span)
        (ALPHA_BLEND (c6Compositor.buf (c6Span.y * c6Compositor.stride + c6Span.x + 1))
          (255 - ALPHA32 (rleSrc (c6Surface.blender.join.apply 10 20 30 128) c6Span))) :=
  ⟨⟨rfl, rfl, rfl, Or.inl rfl, by decide, by decide, by decide, by decide, by decide,
    by decide, by decide, by decide⟩,
   C6_addMask_update_formula.1 c6Surface c6Compositor c6Region 10 20 30 128 0 0 rfl rfl
     rfl (Or.inl rfl) (by decide) (by decide) (by decide) (by decide) (by decide)
     (by decide) (by decide),
   C6_addMask_update_formula.2 c6Surface c6Compositor [] [] c6Span 10 20 30 128 1 rfl rfl
     rfl (by decide) (fun sp2 h => absurd h (List.not_mem_nil _))
     (fun sp2 h => absurd h (List.not_mem_nil _))⟩

def c7Img : Buf := fun _ => 0xFFFFFFFF

/-- Claim C7, counterexample: at `rx = ry = 0`, `n = 1`, on a 1 x 1 image
whose only pixel is `0xFFFFFFFF`, the spec's box mean is
`255 / 4 = 63` per channel (`0x3F3F3F3F`: the box `[-1, 1) x [-1, 1)`
clipped to the image contains the sample `(0, 0)`), but `_interpDownScaler`
returns 0: its `uint32_t` loop bound `rx - n` wraps around below zero, so
the loop body never runs and no sample is accumulated. -/
theorem C7_downscaler_counterexample :
    _interpDownScaler c7Img 1 1 1 0 0 1 = 0 ∧
    downscaleSpec c7Img 1 1 1 0 0 1 = 0x3F3F3F3F ∧
    (0 : Nat) ≠ 0x3F3F3F3F := by
  decide

/-- Claim C7, amended: provided `rx >= n` and `ry >= n` (so the unsigned
loop bounds do not wrap; otherwise the code sums no samples at all and
returns 0), `_interpDownScaler` returns, per channel, the floor division by
`4 n^2` of the sum of the in-range samples of the box
`[rx - n, rx + n) x [ry - n, ry + n)`, skipped samples still counted in the
divisor - the spec's `downscale`. The bounds `n <= 2048`, `rx, ry < 2^31`
keep every `uint32_t` quantity of the source away from wrap-around. -/
theorem C7_downscaler_amended (img : Buf) (stride w h rx ry n : Nat)
    (hn : 1 ≤ n) (hn2 : n ≤ 2048) (hrx : n ≤ rx) (hry : n ≤ ry)
    (hrxb : rx < 2147483648) (hryb : ry < 2147483648) :
    _interpDownScaler img stride w h rx ry n = downscaleSpec img stride w h rx ry n := by
  unfold _interpDownScaler downscaleSpec
  dsimp only
  have hys : subU32 ry n = ry - n := subU32_eq _ _ hry (by omega) (by omega)
  have hxs : subU32 rx n = rx - n := subU32_eq _ _ hrx (by omega) (by omega)
  have hye : (ry + n) % 0x100000000 = ry + n := Nat.mod_eq_of_lt (by omega)
  have hxe : (rx + n) % 0x100000000 = rx + n := Nat.mod_eq_of_lt (by omega)
  rw [hys, hxs, hye, hxe]
  have hcnty : (ry + n) - (ry - n) = 2 * n := by omega
  have hcntx : (rx + n) - (rx - n) = 2 * n := by omega
  rw [hcnty, hcntx]
  obtain ⟨e1, e2, e3, e4⟩ := dsRows_eq img stride w h (rx - n) (2 * n) (2 * n) (ry - n) 0 0 0 0
  rw [e1, e2, e3, e4]
  rw [specOuter_eq img stride w h rx ry n hrx hry byte3,
      specOuter_eq img stride w h rx ry n hrx hry byte2,
      specOuter_eq img stride w h rx ry n hrx hry byte1,
      specOuter_eq img stride w h rx ry n hrx hry byte0]
  simp only [Nat.zero_add, Nat.div_div_eq_div_mul]
  have hm2 : 4 * (n * n) = 4 * n * n := by ring
  rw [hm2]

def c7wImg : Buf := fun a => (0x10203040 + a * 777) % 0x100000000

/-- Witness for the amended claim C7: a 4 x 4 image, box centre `(2, 2)`,
half-scale `n = 1`. -/
theorem C7_downscaler_witness :
    ((1 : Nat) ≤ 1 ∧ (1 : Nat) ≤ 2048 ∧ (1 : Nat) ≤ 2 ∧ (1 : Nat) ≤ 2 ∧
      (2 : Nat) < 2147483648 ∧ (2 : Nat) < 2147483648) ∧
    _interpDownScaler c7wImg 4 4 4 2 2 1 = downscaleSpec c7wImg 4 4 4 2 2 1 :=
  ⟨by decide,
   C7_downscaler_amended c7wImg 4 4 4 2 2 1 (by decide) (by decide) (by decide)
     (by decide) (by decide) (by decide)⟩

def c8Surface : SwSurface :=
  ⟨fun _ => 0, 4, 4, 4, 1, .Grayscale8, ⟨.uninit, .uninit, .uninit, .uninit, .uninit⟩, none⟩

/-- Claim C8, counterexample: on a surface whose colour space is none of
the four supported formats, `rasterCompositor` does return `false`, but it
has already stored `ALPHA` and `IALPHA` into `blender.alphas[0]` and
`alphas[1]` before the colour-space check, so those two blender fields are
modified, contradicting the claim that every field is left unmodified. -/
theorem C8_compositor_counterexample :
    (rasterCompositor c8Surface).2 = false ∧
    (rasterCompositor c8Surface).1.blender.alphas0 = AlphaFn.fnALPHA ∧
    (rasterCompositor c8Surface).1.blender.alphas0 ≠ c8Surface.blender.alphas0 ∧
    (rasterCompositor c8Surface).1.blender.alphas1 ≠ c8Surface.blender.alphas1 := by
  decide

/-- Claim C8, amended: on an unsupported colour space `rasterCompositor`
returns `false` and leaves `join`, `alphas[2]` and `alphas[3]` unmodified,
but it unconditionally sets `alphas[0] := ALPHA` and `alphas[1] := IALPHA`
before the check. -/
theorem C8_compositor_amended (s : SwSurface)
    (h1 : s.cs ≠ ColorSpace.ABGR8888) (h2 : s.cs ≠ ColorSpace.ABGR8888S)
    (h3 : s.cs ≠ ColorSpace.ARGB8888) (h4 : s.cs ≠ ColorSpace.ARGB8888S) :
    (rasterCompositor s).2 = false ∧
    (rasterCompositor s).1.blender.join = s.blender.join ∧
    (rasterCompositor s).1.blender.alphas2 = s.blender.alphas2 ∧
    (rasterCompositor s).1.blender.alphas3 = s.blender.alphas3 ∧
    (rasterCompositor s).1.blender.alphas0 = AlphaFn.fnALPHA ∧
    (rasterCompositor s).1.blender.alphas1 = AlphaFn.fnIALPHA := by
  unfold rasterCompositor
  rw [if_neg (by simp [h1, h2]), if_neg (by simp [h3, h4])]
  simp

/-- Witness for the amended claim C8, on the grayscale surface. -/
theorem C8_compositor_witness :
    (c8Surface.cs ≠ ColorSpace.ABGR8888 ∧ c8Surface.cs ≠ ColorSpace.ABGR8888S ∧
      c8Surface.cs ≠ ColorSpace.ARGB8888 ∧ c8Surface.cs ≠ ColorSpace.ARGB8888S) ∧
    ((rasterCompositor c8Surface).2 = false ∧
      (rasterCompositor c8Surface).1.blender.join = c8Surface.blender.join ∧
      (rasterCompositor c8Surface).1.blender.alphas2 = c8Surface.blender.alphas2 ∧
      (rasterCompositor c8Surface).1.blender.alphas3 = c8Surface.blender.alphas3 ∧
      (rasterCompositor c8Surface).1.blender.alphas0 = AlphaFn.fnALPHA ∧
      (rasterCompositor c8Surface).1.blender.alphas1 = AlphaFn.fnIALPHA) :=
  ⟨by decide,
   C8_compositor_amended c8Surface (by decide) (by decide) (by decide) (by decide)⟩

/-- Claim C9, counterexample: the claim's parenthetical says the
`beginComposite(x, y, w, h)` arguments select the sub-rectangle that is
cleared. On a 4 x 4 main surface with arguments `(1, 1, 2, 2)` the cleared
rectangle is the whole compositor `[0, 4) x [0, 4)`, not `[1, 3) x [1, 3)`:
the `FIXME` block overwrites `x, y, w, h` with the full surface before the
clear runs, so the arguments do not affect even the cleared region. -/
theorem C9_beginComposite_counterexample :
    (beginComposite 4 4 1 1 2 2).clearRect = ⟨0, 0, 4, 4⟩ ∧
    (⟨0, 0, 4, 4⟩ : SwBBox) ≠ ⟨1, 1, 3, 3⟩ ∧
    (beginComposite 4 4 1 1 2 2).bbox = ⟨0, 0, 4, 4⟩ ∧
    (beginComposite 4 4 1 1 2 2).bufW = 4 ∧
    (beginComposite 4 4 1 1 2 2).bufH = 4 := by
  decide

/-- Claim C9, amended: for every successful `beginComposite(x, y, w, h)`
the compositor buffer has the full main-surface dimensions and the context
image's bbox is `[0, surface.w) x [0, surface.h)`; the arguments affect
nothing at all - the cleared rectangle is also the full surface. -/
theorem C9_beginComposite_amended (mainW mainH x y w h : Nat) :
    beginComposite mainW mainH x y w h =
      ⟨mainW, mainH, ⟨0, 0, mainW, mainH⟩, ⟨0, 0, mainW, mainH⟩⟩ := by
  unfold beginComposite
  simp

def c10Surface : SwSurface :=
  ⟨fun _ => 0x80402010, 2, 2, 2, 4, .ABGR8888, fixBlender, none⟩

/-- Claim C10: `rasterUnpremultiply` leaves the alpha byte (bits 24-31) of
every in-bounds pixel of a 4-byte-channel surface unchanged: the `a == 255`
pixels are skipped, `a == 0` pixels become `0x00FFFFFF` (alpha byte still
0), and all others are repacked as `(a << 24) | ...` with the colour
channels clamped to 255, so the alpha plane is identical before and after
the call. -/
theorem C10_unpremultiply_alpha_preserved (s : SwSurface) (x y : Nat)
    (hcs : s.channelSize = 4) (hw : s.w ≤ s.stride) (hx : x < s.w) (hy : y < s.h) :
    (rasterUnpremultiply s).buf (y * s.stride + x) / 0x1000000 % 0x100 =
      s.buf (y * s.stride + x) / 0x1000000 % 0x100 := by
  unfold rasterUnpremultiply
  simp only [hcs]
  norm_num
  rw [regionMap_get_in0 _ _ _ _ _ _ _ hw hx hy]
  exact unpremulPix_alpha _

/-- Witness for claim C10, at pixel `(1, 1)` of a 2 x 2 surface filled
with `0x80402010`. -/
theorem C10_unpremultiply_alpha_witness :
    (c10Surface.channelSize = 4 ∧ c10Surface.w ≤ c10Surface.stride ∧
      (1 : Nat) < c10Surface.w ∧ (1 : Nat) < c10Surface.h) ∧
    (rasterUnpremultiply c10Surface).buf (1 * c10Surface.stride + 1) / 0x1000000 % 0x100 =
      c10Surface.buf (1 * c10Surface.stride + 1) / 0x1000000 % 0x100 :=
  ⟨by decide,
   C10_unpremultiply_alpha_preserved c10Surface 1 1 rfl (by decide) (by decide)
     (by decide)⟩

end ThorVG
